import Mathlib

/-!
Verification development for the music-recommendation pipeline
(CSV rows -> MongoDB documents -> Neo4j graph -> hybrid recommendation).

The definitions below are shallow embeddings of the Python source files
`01_load_mongodb.py`, `02_load_neo4j.py` and `04_cross_data.py`.
Strings are modelled as Lean strings; Python `str.strip` and
`str.split` are re-implemented structurally on the character list so
that all definitions evaluate inside the kernel.
-/

namespace RecMusic

/-! ### Python string primitives -/

/-- Python `str.strip` on a character list: drop whitespace from both ends. -/
def trimChars (cs : List Char) : List Char :=
  ((cs.dropWhile Char.isWhitespace).reverse.dropWhile Char.isWhitespace).reverse

/-- Python `str.strip` on strings. -/
def pyStrip (s : String) : String :=
  ⟨trimChars s.data⟩

/-- Python `str.split(",")` on a character list: every comma separates,
empty pieces are kept, the empty string splits to one empty piece. -/
def splitCommas : List Char → List (List Char)
  | [] => [[]]
  | c :: rest =>
      match splitCommas rest with
      | [] => [[]]
      | t :: ts => if c = ',' then [] :: t :: ts else (c :: t) :: ts

/-- Python `str.split(",")` on strings. -/
def pySplitComma (s : String) : List String :=
  (splitCommas s.data).map fun cs => ⟨cs⟩

/-! ### Row Normalizer (01_load_mongodb.py, transform_row_to_document)

`artist_list = [a.strip() for a in artists_str.split(',') if a.strip()]` -/

/-- The artist-splitting step of `transform_row_to_document`
(01_load_mongodb.py line 53), translated token for token. -/
def artist_list_of (artists_str : String) : List String :=
  (pySplitComma artists_str).filterMap fun a =>
    if pyStrip a = "" then none else some (pyStrip a)

/-- Modelled from the spec words for comparison with `artist_list_of`:
split the raw artists field on commas, trim whitespace from each token,
then drop the empty tokens, keeping order. -/
def specArtistSplit (s : String) : List String :=
  ((pySplitComma s).map pyStrip).filter fun t => t ≠ ""

/-! ### Graph Builder input cleaning (02_load_neo4j.py, clean_value) -/

/-- A value read from a MongoDB document: missing, the float NaN that
pandas writes for missing CSV cells, or a string. -/
inductive MVal where
  | null
  | nan
  | str (s : String)
deriving DecidableEq, Repr

/-- `clean_value` from 02_load_neo4j.py: `None` and NaN become `None`,
other values are stringified and stripped, and an empty result also
becomes `None`. -/
def clean_value : MVal → Option String
  | .null => none
  | .nan => none
  | .str s => if pyStrip s = "" then none else some (pyStrip s)

/-- The projection of a track document streamed by the Graph Builder
(`track_id`, `track_name`, `artist_list`, `track_genre`). -/
structure TrackDoc where
  track_id : MVal
  track_name : MVal
  artist_list : List MVal
  track_genre : MVal
deriving DecidableEq, Repr

/-- One flattened (song, artist) row appended to a Neo4j batch. -/
structure GraphRow where
  track_id : String
  track_name : Option String
  artist : String
  genre : String
deriving DecidableEq, Repr

/-- The per-document body of the main loop of 02_load_neo4j.py:
clean `track_id` and `track_genre` and skip the document when either is
absent, skip it when `artist_list` is empty, otherwise emit one row per
artist whose cleaned name is present. -/
def flattenDoc (doc : TrackDoc) : List GraphRow :=
  match clean_value doc.track_id, clean_value doc.track_genre with
  | some tid, some g =>
      if doc.artist_list = [] then []
      else
        doc.artist_list.filterMap fun a =>
          (clean_value a).map fun name =>
            { track_id := tid, track_name := clean_value doc.track_name,
              artist := name, genre := g }
  | _, _ => []

/-- All flattened rows produced from a document stream, in order. -/
def builderRows (docs : List TrackDoc) : List GraphRow :=
  docs.flatMap flattenDoc

/-! ### Graph store state and the MERGE upserts of insert_batch

The Cypher `MERGE` clauses of `insert_batch` are set-semantics upserts:
a node or relationship is created only when absent, and
`SET song.track_name = row.track_name` refreshes the one scalar
property.  The graph state is modelled extensionally, one
characteristic function per node label and relationship type. -/

@[ext]
structure Graph where
  songExists : String → Bool
  songName : String → Option String
  artistExists : String → Bool
  genreExists : String → Bool
  byArtist : String → String → Bool
  inGenre : String → String → Bool
  playsGenre : String → String → Bool

/-- The effect of one row of the UNWIND in `insert_batch`
(02_load_neo4j.py lines 44-60): MERGE the `Song`, `Artist` and `Genre`
nodes, SET the song name, and MERGE the three relationships. -/
def applyRow (g : Graph) (r : GraphRow) : Graph where
  songExists := fun i => (i == r.track_id) || g.songExists i
  songName := fun i => if i == r.track_id then r.track_name else g.songName i
  artistExists := fun a => (a == r.artist) || g.artistExists a
  genreExists := fun x => (x == r.genre) || g.genreExists x
  byArtist := fun s a => ((s == r.track_id) && (a == r.artist)) || g.byArtist s a
  inGenre := fun s x => ((s == r.track_id) && (x == r.genre)) || g.inGenre s x
  playsGenre := fun a x => ((a == r.artist) && (x == r.genre)) || g.playsGenre a x

/-- Executing a list of rows against the graph store, in order. -/
def buildGraph (rows : List GraphRow) (g : Graph) : Graph :=
  rows.foldl applyRow g

/-- The graph store before any batch has run. -/
def emptyGraph : Graph where
  songExists := fun _ => false
  songName := fun _ => none
  artistExists := fun _ => false
  genreExists := fun _ => false
  byArtist := fun _ _ => false
  inGenre := fun _ _ => false
  playsGenre := fun _ _ => false

/-- One full run of the Graph Builder over a document stream: every
flattened row is applied in order (the batching only groups consecutive
rows into transactions and does not reorder them). -/
def runBuilder (docs : List TrackDoc) (g : Graph) : Graph :=
  buildGraph (builderRows docs) g

/-! ### Batching of the Graph Builder main loop (02_load_neo4j.py) -/

/-- Neo4j batch size from 02_load_neo4j.py line 14. -/
def BATCH_SIZE : Nat := 500

/-- The batch bookkeeping of the main loop: rows of each document are
all appended before the size check, a batch is shipped when it has
reached `BATCH_SIZE`, and whatever is left at the end is the final
batch.  Returns (batches shipped inside the loop, final leftover). -/
def graphBatches : List TrackDoc → List GraphRow → List (List GraphRow) × List GraphRow
  | [], batch => ([], batch)
  | d :: ds, batch =>
      if BATCH_SIZE ≤ (batch ++ flattenDoc d).length then
        ((batch ++ flattenDoc d) :: (graphBatches ds []).1, (graphBatches ds []).2)
      else
        graphBatches ds (batch ++ flattenDoc d)

/-! ### Hybrid Recommender, Step 1 (04_cross_data.py, get_similar_artists)

The Cypher query is evaluated over the set of `PLAYS_GENRE` edges of
the graph store, given as a duplicate-free edge list
(artist name, genre name).  The two MATCH clauses produce one row per
pair of edges (seed -> g, other -> g) with `other <> seed`; the WITH
clause groups the rows by `other` and collects the distinct genre
names; the query then orders by match count descending and limits to
20 rows. -/

/-- The genres bound by the first MATCH clause, the ones the seed artist plays. -/
def seedGenres (edges : List (String × String)) (seed : String) : List String :=
  edges.filterMap fun e => if e.1 = seed then some e.2 else none

/-- The (other, genre) result rows of the two MATCH clauses combined
with `WHERE other <> a`. -/
def matchRows (edges : List (String × String)) (seed : String) : List (String × String) :=
  (seedGenres edges seed).flatMap fun g =>
    edges.filterMap fun e => if e.2 = g ∧ e.1 ≠ seed then some (e.1, g) else none

/-- One record returned by `get_similar_artists`. -/
structure Peer where
  artist : String
  genres : List String
  matchCount : Nat
deriving DecidableEq, Repr

/-- Grouping of the match rows by `other` with `COLLECT(DISTINCT g.name)`
and `SIZE(shared_genres)`. -/
def peerRecords (edges : List (String × String)) (seed : String) : List Peer :=
  ((matchRows edges seed).map Prod.fst).dedup.map fun o =>
    let gs := (((matchRows edges seed).filter fun r => r.1 = o).map Prod.snd).dedup
    { artist := o, genres := gs, matchCount := gs.length }

/-- Descending order on match counts, the `ORDER BY matchCount DESC (sic)`. -/
def peerGE (p q : Peer) : Prop := q.matchCount ≤ p.matchCount

instance : DecidableRel peerGE := fun p q => Nat.decLe q.matchCount p.matchCount

instance : IsTotal Peer peerGE := ⟨fun p q => Nat.le_total q.matchCount p.matchCount⟩

instance : IsTrans Peer peerGE := ⟨fun _ _ _ h1 h2 => Nat.le_trans h2 h1⟩

/-- `get_similar_artists` from 04_cross_data.py: group, order by match
count descending, `LIMIT 20`. -/
def get_similar_artists (edges : List (String × String)) (seed : String) : List Peer :=
  ((peerRecords edges seed).insertionSort peerGE).take 20

/-! ### Hybrid Recommender, Step 2 (04_cross_data.py, get_top_songs_for_artists) -/

/-- A track document as used by the aggregation pipeline. -/
structure SongDoc where
  track_name : String
  artists : String
  album_name : String
  track_genre : String
  popularity : Int
deriving DecidableEq, Repr

/-- The `$project` output: only the four display fields survive. -/
structure SongDisplay where
  track_name : String
  artists : String
  popularity : Int
  track_genre : String
deriving DecidableEq, Repr

def projectDisplay (d : SongDoc) : SongDisplay :=
  { track_name := d.track_name, artists := d.artists,
    popularity := d.popularity, track_genre := d.track_genre }

/-- Descending order on popularity, the sort key of the pipeline. -/
def songGE (a b : SongDoc) : Prop := b.popularity ≤ a.popularity

instance : DecidableRel songGE := fun a b => Int.decLe b.popularity a.popularity

instance : IsTotal SongDoc songGE := ⟨fun a b => Int.le_total b.popularity a.popularity⟩

instance : IsTrans SongDoc songGE := ⟨fun _ _ _ h1 h2 => Int.le_trans h2 h1⟩

/-- Descending popularity on the projected records. -/
def displayGE (a b : SongDisplay) : Prop := b.popularity ≤ a.popularity

/-- `get_top_songs_for_artists` from 04_cross_data.py: `$match` on
`artists $in artists_list`, `$sort` by popularity descending,
`$limit 15`, `$project` to the display fields. -/
def get_top_songs_for_artists (docs : List SongDoc) (artists_list : List String) :
    List SongDisplay :=
  ((((docs.filter fun d => decide (d.artists ∈ artists_list)).insertionSort
    songGE).take 15).map projectDisplay)

/-! ### Connection handling of the recommendation run (04_cross_data.py, main) -/

/-- What a run of `main` leaves behind: whether each store connection
was closed, and whether the run took the early no-peers return. -/
structure RunExit where
  mongoClosed : Bool
  neoClosed : Bool
  earlyNoPeers : Bool
deriving DecidableEq, Repr

/-- The control flow of `main` in 04_cross_data.py: both connections
are opened, similar artists are fetched, and when none are found the
function returns at once - the `mongo_client.close()` and
`neo.close()` calls at the end of the function are only reached on the
normal path. -/
def cross_data_main (edges : List (String × String)) (seed : String) : RunExit :=
  if get_similar_artists edges seed = [] then
    { mongoClosed := false, neoClosed := false, earlyNoPeers := true }
  else
    { mongoClosed := true, neoClosed := true, earlyNoPeers := false }

/-! ### Batch Loader insert (01_load_mongodb.py, insert_documents_batch)

`collection.insert_many(documents, ordered=False)` attempts every
document of the batch; a document fails individually when its
`track_id` collides with the unique index (a duplicate key) or when the
store rejects it for some other reason.  On `BulkWriteError` the code
reports `nInserted` and `len(e.details['writeErrors'])`.  Keys are a
type parameter since only equality of `track_id` values matters. -/

/-- The cause of one entry of `writeErrors`. -/
inductive WriteError where
  | duplicateKey
  | other
deriving DecidableEq, Repr

/-- A document submitted to `insert_many`, reduced to its unique key.
`writeFails` abstractly marks a document the store rejects for a
reason other than a duplicate key (for example an oversized document);
it stands for the non-duplicate members of `writeErrors`. -/
structure InsertDoc (α : Type) where
  key : α
  writeFails : Bool
deriving DecidableEq, Repr

/-- Store state and counters while an unordered `insert_many` runs. -/
structure BulkState (α : Type) where
  state : List α
  nInserted : Nat
  writeErrors : List WriteError
deriving DecidableEq, Repr

/-- One document attempt of the unordered bulk write: a failing
document only appends a write error, everything else proceeds. -/
def insertStep {α : Type} [DecidableEq α] (acc : BulkState α) (d : InsertDoc α) :
    BulkState α :=
  if d.writeFails then
    { acc with writeErrors := acc.writeErrors ++ [WriteError.other] }
  else if d.key ∈ acc.state then
    { acc with writeErrors := acc.writeErrors ++ [WriteError.duplicateKey] }
  else
    { state := acc.state ++ [d.key], nInserted := acc.nInserted + 1,
      writeErrors := acc.writeErrors }

/-- `insert_many(documents, ordered=False)` against a collection whose
unique `track_id` index already holds `existing`. -/
def insert_many {α : Type} [DecidableEq α] (existing : List α)
    (docs : List (InsertDoc α)) : BulkState α :=
  docs.foldl insertStep { state := existing, nInserted := 0, writeErrors := [] }

/-- `insert_documents_batch` from 01_load_mongodb.py lines 84-95: it
returns the pair (inserted count, duplicate count), where the
duplicate count is `len(e.details['writeErrors'])` - the length of the
whole write-error list, whatever the cause of each entry. -/
def insert_documents_batch {α : Type} [DecidableEq α] (existing : List α)
    (docs : List (InsertDoc α)) : Nat × Nat :=
  (insert_many existing docs |>.nInserted, insert_many existing docs |>.writeErrors.length)

/-! ## Supporting lemmas -/

lemma filterMap_strip_eq (l : List String) :
    (l.filterMap fun a => if pyStrip a = "" then none else some (pyStrip a))
      = (l.map pyStrip).filter fun t => t ≠ "" := by
  induction l with
  | nil => rfl
  | cons a l ih =>
      by_cases h : pyStrip a = "" <;>
        simp [List.filterMap_cons, List.filter_cons, h, ih]

lemma buildGraph_cons (r : GraphRow) (rs : List GraphRow) (g : Graph) :
    buildGraph (r :: rs) g = buildGraph rs (applyRow g r) := rfl

lemma buildGraph_songExists (rows : List GraphRow) (g : Graph) (i : String) :
    (buildGraph rows g).songExists i
      = ((rows.any fun r => i == r.track_id) || g.songExists i) := by
  induction rows generalizing g with
  | nil => simp [buildGraph]
  | cons r rs ih =>
      rw [buildGraph_cons, ih]
      cases hx : (i == r.track_id) <;>
        cases hy : rs.any (fun r => i == r.track_id) <;>
          simp [applyRow, hx, hy]

lemma buildGraph_artistExists (rows : List GraphRow) (g : Graph) (a : String) :
    (buildGraph rows g).artistExists a
      = ((rows.any fun r => a == r.artist) || g.artistExists a) := by
  induction rows generalizing g with
  | nil => simp [buildGraph]
  | cons r rs ih =>
      rw [buildGraph_cons, ih]
      cases hx : (a == r.artist) <;>
        cases hy : rs.any (fun r => a == r.artist) <;>
          simp [applyRow, hx, hy]

lemma buildGraph_genreExists (rows : List GraphRow) (g : Graph) (x : String) :
    (buildGraph rows g).genreExists x
      = ((rows.any fun r => x == r.genre) || g.genreExists x) := by
  induction rows generalizing g with
  | nil => simp [buildGraph]
  | cons r rs ih =>
      rw [buildGraph_cons, ih]
      cases hx : (x == r.genre) <;>
        cases hy : rs.any (fun r => x == r.genre) <;>
          simp [applyRow, hx, hy]

lemma buildGraph_byArtist (rows : List GraphRow) (g : Graph) (s a : String) :
    (buildGraph rows g).byArtist s a
      = ((rows.any fun r => (s == r.track_id) && (a == r.artist)) || g.byArtist s a) := by
  induction rows generalizing g with
  | nil => simp [buildGraph]
  | cons r rs ih =>
      rw [buildGraph_cons, ih]
      cases hx : ((s == r.track_id) && (a == r.artist)) <;>
        cases hy : rs.any (fun r => (s == r.track_id) && (a == r.artist)) <;>
          simp [applyRow, hx, hy]

lemma buildGraph_inGenre (rows : List GraphRow) (g : Graph) (s x : String) :
    (buildGraph rows g).inGenre s x
      = ((rows.any fun r => (s == r.track_id) && (x == r.genre)) || g.inGenre s x) := by
  induction rows generalizing g with
  | nil => simp [buildGraph]
  | cons r rs ih =>
      rw [buildGraph_cons, ih]
      cases hx : ((s == r.track_id) && (x == r.genre)) <;>
        cases hy : rs.any (fun r => (s == r.track_id) && (x == r.genre)) <;>
          simp [applyRow, hx, hy]

lemma buildGraph_playsGenre (rows : List GraphRow) (g : Graph) (a x : String) :
    (buildGraph rows g).playsGenre a x
      = ((rows.any fun r => (a == r.artist) && (x == r.genre)) || g.playsGenre a x) := by
  induction rows generalizing g with
  | nil => simp [buildGraph]
  | cons r rs ih =>
      rw [buildGraph_cons, ih]
      cases hx : ((a == r.artist) && (x == r.genre)) <;>
        cases hy : rs.any (fun r => (a == r.artist) && (x == r.genre)) <;>
          simp [applyRow, hx, hy]

/-- The last `SET song.track_name` a row list performs on a song key. -/
def lastName : List GraphRow → String → Option (Option String)
  | [], _ => none
  | r :: rs, i =>
      match lastName rs i with
      | some n => some n
      | none => if i == r.track_id then some r.track_name else none

lemma buildGraph_songName (rows : List GraphRow) (g : Graph) (i : String) :
    (buildGraph rows g).songName i
      = match lastName rows i with
        | some n => n
        | none => g.songName i := by
  induction rows generalizing g with
  | nil => rfl
  | cons r rs ih =>
      rw [buildGraph_cons, ih]
      cases h : lastName rs i with
      | some n => simp [lastName, h]
      | none =>
          by_cases hx : i = r.track_id
          · subst hx
            simp [lastName, applyRow, h]
          · simp [lastName, applyRow, h, hx]

lemma buildGraph_idem (rows : List GraphRow) (g : Graph) :
    buildGraph rows (buildGraph rows g) = buildGraph rows g := by
  apply Graph.ext
  · funext i
    rw [buildGraph_songExists, buildGraph_songExists]
    cases h : rows.any (fun r => i == r.track_id) <;> simp [h]
  · funext i
    rw [buildGraph_songName, buildGraph_songName]
    cases h : lastName rows i <;> simp [h]
  · funext a
    rw [buildGraph_artistExists, buildGraph_artistExists]
    cases h : rows.any (fun r => a == r.artist) <;> simp [h]
  · funext x
    rw [buildGraph_genreExists, buildGraph_genreExists]
    cases h : rows.any (fun r => x == r.genre) <;> simp [h]
  · funext s a
    rw [buildGraph_byArtist, buildGraph_byArtist]
    cases h : rows.any (fun r => (s == r.track_id) && (a == r.artist)) <;> simp [h]
  · funext s x
    rw [buildGraph_inGenre, buildGraph_inGenre]
    cases h : rows.any (fun r => (s == r.track_id) && (x == r.genre)) <;> simp [h]
  · funext a x
    rw [buildGraph_playsGenre, buildGraph_playsGenre]
    cases h : rows.any (fun r => (a == r.artist) && (x == r.genre)) <;> simp [h]

/-! ## Claim theorems -/

/-- Claim C1: running the Graph Builder twice against the same unchanged
Document Store contents produces a graph identical to running it once -
the same Song, Artist and Genre nodes, the same BY_ARTIST, IN_GENRE and
PLAYS_GENRE relationships, with no duplicate nodes or extra
relationship instances (node and relationship sets are modelled
extensionally, so equality of graphs is exactly that). -/
theorem graphBuilder_idempotent (docs : List TrackDoc) :
    runBuilder docs (runBuilder docs emptyGraph) = runBuilder docs emptyGraph :=
  buildGraph_idem (builderRows docs) emptyGraph

/-- Claim C2: a track document whose cleaned `track_id` or `track_genre`
is absent (missing, NaN, or empty after stripping) or whose
`artist_list` is empty is skipped entirely by the Graph Builder: it
emits no flattened row, and a builder run over just that document
creates no Song node at all. -/
theorem builder_skips_incomplete (doc : TrackDoc)
    (h : clean_value doc.track_id = none ∨ clean_value doc.track_genre = none
          ∨ doc.artist_list = []) :
    flattenDoc doc = [] ∧ ∀ i, (runBuilder [doc] emptyGraph).songExists i = false := by
  have hflat : flattenDoc doc = [] := by
    unfold flattenDoc
    rcases h with h | h | h
    · rw [h]
    · rw [h]
      cases clean_value doc.track_id <;> rfl
    · cases htid : clean_value doc.track_id <;>
        cases hg : clean_value doc.track_genre <;> simp [h]
  refine ⟨hflat, fun i => ?_⟩
  simp [runBuilder, builderRows, hflat, buildGraph, emptyGraph]

/-- Witness for C2: a document with `track_id` and a non-empty artist
list present but `track_genre` missing is skipped. -/
theorem builder_skips_incomplete_witness :
    (clean_value (TrackDoc.mk (.str "t1") (.str "song one") [.str "A"] .null).track_id = none
      ∨ clean_value (TrackDoc.mk (.str "t1") (.str "song one") [.str "A"] .null).track_genre = none
      ∨ (TrackDoc.mk (.str "t1") (.str "song one") [.str "A"] .null).artist_list = [])
    ∧ (flattenDoc (TrackDoc.mk (.str "t1") (.str "song one") [.str "A"] .null) = []
        ∧ ∀ i, (runBuilder [TrackDoc.mk (.str "t1") (.str "song one") [.str "A"] .null]
            emptyGraph).songExists i = false) :=
  ⟨Or.inr (Or.inl (by decide)),
    builder_skips_incomplete _ (Or.inr (Or.inl (by decide)))⟩

/-- Claim C7: the artist splitting of the Row Normalizer splits the raw
artists field on commas, trims each token, drops empty tokens,
preserves order and does not deduplicate: it agrees with the
spec-modelled split everywhere, maps "X, Y, , Z" to ["X", "Y", "Z"],
and keeps the repeated name in "X,Y,X". -/
theorem artist_split_spec :
    (∀ s : String, artist_list_of s = specArtistSplit s)
    ∧ artist_list_of "X, Y, , Z" = ["X", "Y", "Z"]
    ∧ artist_list_of "X,Y,X" = ["X", "Y", "X"] :=
  ⟨fun s => filterMap_strip_eq (pySplitComma s), by decide, by decide⟩

lemma graphBatches_fst_bounds (ds : List TrackDoc) (batch : List GraphRow)
    (hb : batch.length < BATCH_SIZE) :
    ∀ b ∈ (graphBatches ds batch).1,
      BATCH_SIZE ≤ b.length
        ∧ ∃ d ∈ ds, b.length ≤ (BATCH_SIZE - 1) + (flattenDoc d).length := by
  induction ds generalizing batch with
  | nil =>
      intro b hbm
      simp [graphBatches] at hbm
  | cons d ds ih =>
      intro b hbm
      by_cases hful : BATCH_SIZE ≤ (batch ++ flattenDoc d).length
      · simp only [graphBatches, if_pos hful] at hbm
        rcases List.mem_cons.mp hbm with rfl | hbm'
        · refine ⟨hful, d, List.mem_cons_self d ds, ?_⟩
          rw [List.length_append]
          omega
        · obtain ⟨h1, d', hd', h2⟩ := ih [] (by simp [BATCH_SIZE]) b hbm'
          exact ⟨h1, d', List.mem_cons_of_mem _ hd', h2⟩
      · simp only [graphBatches, if_neg hful] at hbm
        obtain ⟨h1, d', hd', h2⟩ := ih _ (Nat.lt_of_not_le hful) b hbm
        exact ⟨h1, d', List.mem_cons_of_mem _ hd', h2⟩

set_option maxRecDepth 100000 in
/-- Claim C10: the flush check of the Graph Builder main loop runs only
after all flattened rows of a document have been appended, so a batch
shipped inside the loop always holds at least `BATCH_SIZE` rows, is
bounded by `BATCH_SIZE - 1` plus the retained-artist fan-out of the
last document added, and can indeed exceed `BATCH_SIZE`. -/
theorem graphBatches_bounds :
    (∀ (docs : List TrackDoc), ∀ b ∈ (graphBatches docs []).1,
        BATCH_SIZE ≤ b.length
          ∧ ∃ d ∈ docs, b.length ≤ (BATCH_SIZE - 1) + (flattenDoc d).length)
    ∧ (∃ (docs : List TrackDoc), ∃ b ∈ (graphBatches docs []).1,
        BATCH_SIZE < b.length) := by
  constructor
  · intro docs b hb
    exact graphBatches_fst_bounds docs [] (by simp [BATCH_SIZE]) b hb
  · refine ⟨[TrackDoc.mk (.str "t") (.str "n")
      (List.replicate 501 (.str "a")) (.str "g")], ?_⟩
    decide

set_option maxRecDepth 100000 in
/-- Witness for C10: the loop-shipped batch produced by a single
document with 501 artists satisfies the bounds of the claim theorem. -/
theorem graphBatches_bounds_witness :
    BATCH_SIZE ≤ (List.replicate 501 (GraphRow.mk "t" (some "n") "a" "g")).length
      ∧ ∃ d ∈ [TrackDoc.mk (.str "t") (.str "n")
            (List.replicate 501 (.str "a")) (.str "g")],
          (List.replicate 501 (GraphRow.mk "t" (some "n") "a" "g")).length
            ≤ (BATCH_SIZE - 1) + (flattenDoc d).length :=
  graphBatches_bounds.1 _ _ (by decide)

lemma matchRows_fst_ne_seed (edges : List (String × String)) (seed : String)
    (row : String × String) (hrow : row ∈ matchRows edges seed) : row.1 ≠ seed := by
  simp only [matchRows, List.mem_flatMap, List.mem_filterMap] at hrow
  obtain ⟨g, _, e, _, heq⟩ := hrow
  by_cases hc : e.2 = g ∧ e.1 ≠ seed
  · rw [if_pos hc] at heq
    cases heq
    exact hc.2
  · rw [if_neg hc] at heq
    cases heq

lemma peerRecords_mem (edges : List (String × String)) (seed : String)
    (p : Peer) (hp : p ∈ peerRecords edges seed) :
    (∃ row ∈ matchRows edges seed, row.1 = p.artist)
    ∧ p.matchCount = p.genres.length ∧ p.genres.Nodup := by
  simp only [peerRecords, List.mem_map] at hp
  obtain ⟨o, ho, rfl⟩ := hp
  refine ⟨?_, rfl, List.nodup_dedup _⟩
  obtain ⟨row, hrow, hfst⟩ := List.mem_map.mp (List.mem_dedup.mp ho)
  exact ⟨row, hrow, hfst⟩

/-- Claim C3: for every seed artist name, the peer list returned by
`get_similar_artists` never contains the seed artist itself. -/
theorem seed_not_in_peers (edges : List (String × String)) (seed : String)
    (p : Peer) (hp : p ∈ get_similar_artists edges seed) :
    p.artist ≠ seed := by
  have hp1 : p ∈ peerRecords edges seed :=
    (List.mem_insertionSort peerGE).mp (List.mem_of_mem_take hp)
  obtain ⟨⟨row, hrow, hfst⟩, -, -⟩ := peerRecords_mem edges seed p hp1
  rw [← hfst]
  exact matchRows_fst_ne_seed edges seed row hrow

/-- Witness for C3: with edges A-pop and B-pop, the peer B returned for
seed A is not A. -/
theorem seed_not_in_peers_witness :
    (Peer.mk "B" ["pop"] 1) ∈ get_similar_artists [("A", "pop"), ("B", "pop")] "A"
    ∧ (Peer.mk "B" ["pop"] 1).artist ≠ "A" :=
  ⟨by decide,
    seed_not_in_peers [("A", "pop"), ("B", "pop")] "A" (Peer.mk "B" ["pop"] 1) (by decide)⟩

/-- Claim C4: every returned peer has a match count equal to the length
of its duplicate-free shared-genres list, and the returned list is
ordered by match count descending and capped at 20. -/
theorem peers_consistent (edges : List (String × String)) (seed : String) :
    (∀ p ∈ get_similar_artists edges seed,
        p.matchCount = p.genres.length ∧ p.genres.Nodup)
    ∧ List.Sorted peerGE (get_similar_artists edges seed)
    ∧ (get_similar_artists edges seed).length ≤ 20 := by
  refine ⟨?_, ?_, ?_⟩
  · intro p hp
    have hp1 : p ∈ peerRecords edges seed :=
      (List.mem_insertionSort peerGE).mp (List.mem_of_mem_take hp)
    exact (peerRecords_mem edges seed p hp1).2
  · exact (List.sorted_insertionSort peerGE (peerRecords edges seed)).sublist
      (List.take_sublist 20 _)
  · exact List.length_take_le 20 _

/-- Witness for C4: with edges A-rock and C-rock, seed A returns the
peer C whose match count is the size of its genre list. -/
theorem peers_consistent_witness :
    ((Peer.mk "C" ["rock"] 1).matchCount = (Peer.mk "C" ["rock"] 1).genres.length
      ∧ (Peer.mk "C" ["rock"] 1).genres.Nodup)
    ∧ (get_similar_artists [("A", "rock"), ("C", "rock")] "A").length ≤ 20 :=
  ⟨(peers_consistent [("A", "rock"), ("C", "rock")] "A").1 _ (by decide),
    (peers_consistent [("A", "rock"), ("C", "rock")] "A").2.2⟩

/-- Claim C5: `get_top_songs_for_artists` returns exactly the tracks
whose `artists` field is one of the given names - every returned record
comes from such a track, and when at most 15 tracks match, every
matching track is returned - sorted by popularity descending, capped at
15, and projected to the four display fields. -/
theorem top_songs_correct (docs : List SongDoc) (names : List String) :
    (∀ r ∈ get_top_songs_for_artists docs names,
        ∃ d ∈ docs, d.artists ∈ names ∧ projectDisplay d = r)
    ∧ ((docs.filter fun d => decide (d.artists ∈ names)).length ≤ 15 →
        ∀ d ∈ docs, d.artists ∈ names →
          projectDisplay d ∈ get_top_songs_for_artists docs names)
    ∧ List.Sorted displayGE (get_top_songs_for_artists docs names)
    ∧ (get_top_songs_for_artists docs names).length ≤ 15 := by
  refine ⟨?_, ?_, ?_, ?_⟩
  · intro r hr
    obtain ⟨d, hd, rfl⟩ := List.mem_map.mp hr
    have hd1 : d ∈ docs.filter fun d => decide (d.artists ∈ names) :=
      (List.mem_insertionSort songGE).mp (List.mem_of_mem_take hd)
    have hd2 := List.mem_filter.mp hd1
    exact ⟨d, hd2.1, by simpa using hd2.2, rfl⟩
  · intro hlen d hd hdn
    have hmem : d ∈ docs.filter fun d => decide (d.artists ∈ names) :=
      List.mem_filter.mpr ⟨hd, by simpa using hdn⟩
    have hperm := List.perm_insertionSort songGE
      (docs.filter fun d => decide (d.artists ∈ names))
    have hlen2 : ((docs.filter fun d => decide (d.artists ∈ names)).insertionSort
        songGE).length ≤ 15 := by
      rw [hperm.length_eq]
      exact hlen
    unfold get_top_songs_for_artists
    rw [List.take_of_length_le hlen2]
    exact List.mem_map_of_mem _ (hperm.mem_iff.mpr hmem)
  · exact List.pairwise_map.mpr
      ((List.sorted_insertionSort songGE _).sublist (List.take_sublist 15 _))
  · rw [get_top_songs_for_artists, List.length_map]
    exact List.length_take_le 15 _

/-- Witness for C5: one matching document is returned, and membership
at the concrete input discharges every hypothesis of the theorem. -/
theorem top_songs_correct_witness :
    projectDisplay (SongDoc.mk "s1" "A" "al" "pop" 7)
      ∈ get_top_songs_for_artists [SongDoc.mk "s1" "A" "al" "pop" 7] ["A"] :=
  (top_songs_correct [SongDoc.mk "s1" "A" "al" "pop" 7] ["A"]).2.1
    (by decide) _ (by decide) (by decide)

/-- Claim C6 is refuted by the code: when the graph expansion returns
no peers, `main` of 04_cross_data.py returns early and reaches neither
`mongo_client.close()` nor `neo.close()` - with an empty edge set the
run takes the early exit and closes neither connection. -/
theorem connections_not_closed_on_no_peers :
    (cross_data_main [] "A").earlyNoPeers = true
    ∧ (cross_data_main [] "A").mongoClosed = false
    ∧ (cross_data_main [] "A").neoClosed = false := by decide

lemma insert_many_fresh {α : Type} [DecidableEq α] (fresh : List α) (acc : BulkState α)
    (hN : fresh.Nodup) (hnew : ∀ x ∈ fresh, x ∉ acc.state) :
    (fresh.map fun k => InsertDoc.mk k false).foldl insertStep acc
      = BulkState.mk (acc.state ++ fresh) (acc.nInserted + fresh.length)
          acc.writeErrors := by
  induction fresh generalizing acc with
  | nil => simp
  | cons x xs ih =>
      have hx : x ∉ acc.state := hnew x (List.mem_cons_self x xs)
      have hnew' : ∀ y ∈ xs, y ∉ acc.state ++ [x] := by
        intro y hy
        simp only [List.mem_append, List.mem_singleton]
        rintro (h | rfl)
        · exact hnew y (List.mem_cons_of_mem x hy) h
        · exact (List.nodup_cons.mp hN).1 hy
      simp only [List.map_cons, List.foldl_cons]
      rw [show insertStep acc (InsertDoc.mk x false)
            = BulkState.mk (acc.state ++ [x]) (acc.nInserted + 1) acc.writeErrors from by
          simp [insertStep, hx],
        ih _ (List.nodup_cons.mp hN).2 hnew']
      simp only [BulkState.mk.injEq, List.append_assoc, List.singleton_append,
        List.length_cons, true_and, and_true]
      omega

/-- Claim C8: a batch made of one duplicate-key document and otherwise
fresh, pairwise-distinct documents reports every fresh document as
inserted and exactly one duplicate; the duplicate aborts neither the
batch (all fresh keys end up stored) nor the run (the call returns a
count pair rather than failing). -/
theorem batch_insert_tolerance {α : Type} [DecidableEq α]
    (existing fresh : List α) (dup : α)
    (hdup : dup ∈ existing) (hN : fresh.Nodup)
    (hnew : ∀ x ∈ fresh, x ∉ existing) :
    insert_documents_batch existing
        (InsertDoc.mk dup false :: fresh.map fun k => InsertDoc.mk k false)
      = (fresh.length, 1)
    ∧ ∀ x ∈ fresh,
        x ∈ (insert_many existing
          (InsertDoc.mk dup false :: fresh.map fun k => InsertDoc.mk k false)).state := by
  have hall : insert_many existing
      (InsertDoc.mk dup false :: fresh.map fun k => InsertDoc.mk k false)
      = BulkState.mk (existing ++ fresh) fresh.length [WriteError.duplicateKey] := by
    unfold insert_many
    rw [List.foldl_cons,
      show insertStep (BulkState.mk existing 0 []) (InsertDoc.mk dup false)
        = BulkState.mk existing 0 [WriteError.duplicateKey] from by
          simp [insertStep, hdup],
      insert_many_fresh fresh _ hN (by simpa using hnew)]
    simp
  constructor
  · unfold insert_documents_batch
    rw [hall]
    rfl
  · intro x hx
    rw [hall]
    simp [hx]

/-- Witness for C8: against a store holding key 0, a batch of the
duplicate key 0 followed by the 999 fresh keys 1..999 reports 999
inserted and 1 duplicate. -/
theorem batch_insert_tolerance_witness :
    insert_documents_batch [0]
        (InsertDoc.mk 0 false :: (List.range' 1 999).map fun k => InsertDoc.mk k false)
      = (999, 1) := by
  have h := (batch_insert_tolerance [0] (List.range' 1 999) 0
      (List.mem_singleton.mpr rfl) (List.nodup_range' 1 999)
      (by
        intro x hx
        rw [List.mem_range'_1] at hx
        simp only [List.mem_singleton]
        omega)).1
  rwa [List.length_range' 1 1 999] at h

lemma writeError_length_eq_counts (l : List WriteError) :
    l.length = l.count WriteError.duplicateKey + l.count WriteError.other := by
  induction l with
  | nil => rfl
  | cons e l ih =>
      cases e <;> simp [List.count_cons, ih] <;> omega

/-- Claim C9: the duplicate count reported by `insert_documents_batch`
is the length of the whole write-error list, so every per-document
failure is counted as a duplicate whatever its cause; in particular a
batch whose only document fails for a non-duplicate reason, against an
empty store, is still reported as 0 inserted and 1 duplicate. -/
theorem duplicates_count_all_write_errors (existing : List Nat)
    (docs : List (InsertDoc Nat)) :
    (insert_documents_batch existing docs).2
      = (insert_many existing docs).writeErrors.count WriteError.duplicateKey
        + (insert_many existing docs).writeErrors.count WriteError.other
    ∧ insert_documents_batch ([] : List Nat) [InsertDoc.mk 7 true] = (0, 1) :=
  ⟨writeError_length_eq_counts _, by decide⟩

end RecMusic
